import Mathlib

/-!
Verification development for the `nebula-fb` presentation core of AetherOS
(src/forge/nebula-fb): framebuffer double-buffered presentation (fb.rs),
scene stack (scene.rs, main.rs), WAV parsing and ALSA playback (audio.rs),
and evdev pointer scaling (input.rs).

Machine integers are modelled as `Nat`/`Int` with explicit `% 2^32` where
u32/i32 overflow or casts matter.  Fallible paths return `Option`, and Rust
panics (out-of-bounds indexing, `clamp` with inverted bounds) are modelled
as an explicit result alternative.
-/

namespace NebulaFB

/-! ### Framebuffer presenter — src/forge/nebula-fb/src/fb.rs

The `Framebuffer` state carries the mmapped region, the back buffer, the
previously presented frame and the dirty flag (fb.rs lines 88-96).  Bytes
are modelled as `Nat`.
-/

structure Framebuffer where
  mapped : List Nat
  back_buffer : List Nat
  prev_buffer : List Nat
  dirty : Bool
deriving DecidableEq

/-- fb.rs lines 186-189: `self.dirty || self.back_buffer != self.prev_buffer`. -/
def Framebuffer.is_dirty (fb : Framebuffer) : Bool :=
  fb.dirty || decide (fb.back_buffer ≠ fb.prev_buffer)

/-- The RGBA→BGRA blit loop of fb.rs lines 203-208: `chunks_exact(4)` over the
back buffer zipped with `chunks_exact_mut(4)` over the mapped destination;
`dst[0] = src[2]; dst[1] = src[1]; dst[2] = src[0]; dst[3] = src[3]`.
Trailing bytes that do not form a full 4-byte chunk on either side are left
untouched, as with `chunks_exact`. -/
def blit4 : List Nat → List Nat → List Nat
  | r :: g :: b :: a :: src, _ :: _ :: _ :: _ :: dst =>
      b :: g :: r :: a :: blit4 src dst
  | _, dst => dst

/-- The sequence of byte writes `(offset, value)` the blit loop performs on the
mapped region, in program order (fb.rs lines 203-208). -/
def blitWrites (base : Nat) : List Nat → List Nat → List (Nat × Nat)
  | r :: g :: b :: a :: src, _ :: _ :: _ :: _ :: dst =>
      (base, b) :: (base + 1, g) :: (base + 2, r) :: (base + 3, a) ::
        blitWrites (base + 4) src dst
  | _, _ => []

/-- fb.rs lines 193-212, `Framebuffer::present`.  Returns the new state paired
with the list of writes performed on the mapped region.  When `is_dirty` is
false it returns at once (zero writes); otherwise it blits, snapshots the back
buffer into `prev_buffer` and clears `dirty`. -/
def Framebuffer.present (fb : Framebuffer) : Framebuffer × List (Nat × Nat) :=
  if !fb.is_dirty then (fb, [])
  else
    ({ fb with
        mapped := blit4 fb.back_buffer fb.mapped
        prev_buffer := fb.back_buffer
        dirty := false },
      blitWrites 0 fb.back_buffer fb.mapped)

/-! ### Scene stack — src/forge/nebula-fb/src/scene.rs and main.rs

Scenes are abstracted to their identities (a type parameter `α`); the stack
is a `List α` whose LAST element is the top (Rust `Vec` push/pop act on the
end).  The active scene is the last element.
-/

inductive Transition (α : Type) where
  | none
  | push (s : α)
  | replace (s : α)
  | pop

/-- scene.rs lines 65-77, `SceneManager::apply`. -/
def sceneApply (stack : List α) : Transition α → List α
  | .none => stack
  | .push s => stack ++ [s]
  | .replace s => stack.dropLast ++ [s]
  | .pop => stack.dropLast

/-- scene.rs lines 37-44 / 52-59: `update` and `handle_input` obtain a
transition from the top scene and apply it; on an empty stack they return
without applying anything.  The transition itself is supplied abstractly. -/
def sceneDispatch (stack : List α) (t : Transition α) : List α :=
  match stack.getLast? with
  | Option.none => stack
  | Option.some _ => sceneApply stack t

/-- The scene-stack state after one iteration of the hosting loop
(main.rs lines 71-90): the input transition is dispatched first when an
input event arrived, then the update transition. -/
def loopIterStack (stack : List α) (tIn : Option (Transition α))
    (tUpd : Transition α) : List α :=
  let s1 := match tIn with
    | Option.none => stack
    | Option.some t => sceneDispatch stack t
  sceneDispatch s1 tUpd

/-- One iteration of the hosting loop (main.rs lines 66-110), reduced to its
scene-stack skeleton.  `Option.none` models the `break` at lines 84-87 — the
only exit out of the loop — which fires exactly when the stack is empty. -/
def loopIter (stack : List α) (tIn : Option (Transition α))
    (tUpd : Transition α) : Option (List α) :=
  let s2 := loopIterStack stack tIn tUpd
  if s2.isEmpty then Option.none else Option.some s2

/-! ### WAV header parsing — src/forge/nebula-fb/src/audio.rs lines 23-72

Bytes are `Nat` (values < 256 in practice).  Rust indexing `data[i]` past the
end aborts the thread with a panic; that outcome is a distinguished
`ParseResult.panicked` alternative, so the embedding is total while exposing
exactly where the source is not.
-/

structure WavInfo where
  channels : Nat
  sample_rate : Nat
  bits_per_sample : Nat
  data_offset : Nat
  data_len : Nat
deriving DecidableEq

inductive ParseResult where
  | panicked
  | nothing
  | ok (info : WavInfo)
deriving DecidableEq

/-- Little-endian u16 at offset `i` (`u16::from_le_bytes`). -/
def le16 (d : List Nat) (i : Nat) : Nat :=
  d.getD i 0 + 256 * d.getD (i + 1) 0

/-- Little-endian u32 at offset `i` (`u32::from_le_bytes`). -/
def le32 (d : List Nat) (i : Nat) : Nat :=
  d.getD i 0 + 256 * d.getD (i + 1) 0 + 65536 * d.getD (i + 2) 0 +
    16777216 * d.getD (i + 3) 0

def riffTag : List Nat := [82, 73, 70, 70]
def waveTag : List Nat := [87, 65, 86, 69]
def fmtTag : List Nat := [102, 109, 116, 32]
def dataTag : List Nat := [100, 97, 116, 97]

/-- audio.rs lines 61-71: the epilogue after the chunk walk. -/
def wavFinish (chans rate bits dOff dLen : Nat) : ParseResult :=
  if dOff = 0 ∨ rate = 0 then .nothing
  else .ok ⟨chans, rate, bits, dOff, dLen⟩

/-- audio.rs lines 40-59: the chunk walk `while pos + 8 <= data.len()`.
The `fmt ` branch indexes `data[pos+10] .. data[pos+23]` without a bounds
check, so when the buffer ends before `pos + 24` the source panics.  `fuel`
bounds the iteration count (each iteration advances `pos` by at least 8, so
`d.length` iterations always suffice); it is a structural-recursion device
only and is never exhausted for the inputs considered here. -/
def wavLoop (d : List Nat) (fuel pos chans rate bits dOff dLen : Nat) :
    ParseResult :=
  match fuel with
  | 0 => .panicked
  | fl + 1 =>
    if pos + 8 ≤ d.length then
      let cid := (d.drop pos).take 4
      let csz := le32 d (pos + 4)
      if cid = fmtTag ∧ 16 ≤ csz then
        if pos + 24 ≤ d.length then
          let np := pos + 8 + csz
          wavLoop d fl (np + np % 2) (le16 d (pos + 10)) (le32 d (pos + 12))
            (le16 d (pos + 22)) dOff dLen
        else .panicked
      else if cid = dataTag then
        wavFinish chans rate bits (pos + 8) csz
      else
        let np := pos + 8 + csz
        wavLoop d fl (np + np % 2) chans rate bits dOff dLen
    else wavFinish chans rate bits dOff dLen

/-- audio.rs lines 23-72, `parse_wav_header`. -/
def parse_wav_header (d : List Nat) : ParseResult :=
  if d.length < 44 then .nothing
  else if d.take 4 ≠ riffTag ∨ (d.drop 8).take 4 ≠ waveTag then .nothing
  else wavLoop d d.length 12 0 0 0 0 0

/-! ### Fade / stop control inside the chunk loop — audio.rs lines 214-260

One iteration of the `while offset < actual_len` loop begins with the control
check of lines 218-237.  The observation `FadeObs` supplies what the loads of
the shared atomics and `Instant::now()` return at that iteration:
`stop`/`fade` flags, the current time `now` in milliseconds, and the loaded
fade duration `dur` (a u32).  `elapsed_ms` is `as_millis() as u32`, hence
`% 2^32`, and `elapsed_ms * 1000` is u32 multiplication, hence again
`% 2^32`; `1000u32.saturating_sub` is `Nat` subtraction.
-/

structure FadeObs where
  stop : Bool
  fade : Bool
  now : Nat
  dur : Nat
deriving DecidableEq

inductive CtrlOutcome where
  | stopped
  | cont (fadeStart : Option Nat) (volume : Nat)
deriving DecidableEq

/-- audio.rs lines 218-237: the per-iteration stop check and fade handling.
`fadeStart` is `None` until the fade flag is first observed; `getD o.now`
models `if fade_start.is_none() { fade_start = Some(now) }`. -/
def ctrlStep (fadeStart : Option Nat) (volume : Nat) (o : FadeObs) :
    CtrlOutcome :=
  if o.stop then .stopped
  else if o.fade then
    let fs := fadeStart.getD o.now
    let elapsed := (o.now - fs) % 4294967296
    if o.dur ≤ elapsed then .stopped
    else .cont (Option.some fs) (1000 - elapsed * 1000 % 4294967296 / o.dur)
  else .cont fadeStart volume

/-- The divisions `(dividend, divisor)` the control check of audio.rs
lines 218-237 executes: exactly one — `elapsed_ms * 1000 / duration` at
line 234 — and only on the path where line 231's `elapsed_ms >= duration`
test was false. -/
def ctrlStepDivs (fadeStart : Option Nat) (o : FadeObs) : List (Nat × Nat) :=
  if o.stop then []
  else if o.fade then
    let fs := fadeStart.getD o.now
    let elapsed := (o.now - fs) % 4294967296
    if o.dur ≤ elapsed then []
    else [(elapsed * 1000 % 4294967296, o.dur)]
  else []

inductive PlayResult where
  | stoppedEarly
  | completed
deriving DecidableEq

/-- audio.rs lines 211-260: the chunk loop.  `rawChunk` is the ~100 ms chunk
size before the `.max(4096)` of line 212 (applied here, so the step is always
positive as in the source); `obs k` is the observation of the `k`-th
iteration; `offset` advances by `end - offset` with
`end = min (offset + chunk) actualLen` (line 239). -/
def chunkLoop (rawChunk actualLen : Nat) (obs : Nat → FadeObs) (k offset : Nat)
    (fadeStart : Option Nat) (volume : Nat) : PlayResult :=
  if _h : offset < actualLen then
    match ctrlStep fadeStart volume (obs k) with
    | .stopped => .stoppedEarly
    | .cont fs v =>
        chunkLoop rawChunk actualLen obs (k + 1)
          (min (offset + max rawChunk 4096) actualLen) fs v
  else .completed
termination_by actualLen - offset
decreasing_by
  omega

/-! ### ALSA hardware parameters — audio.rs lines 272-399, `configure_alsa`

The `snd_pcm_hw_params` record is modelled field-for-field: three capability
masks of eight u32 words each, two reserved masks, twelve intervals, and the
trailing scalar fields, all zeroed by `mem::zeroed()` (line 315) before the
widening loops.
-/

structure SndInterval where
  low : Nat
  high : Nat
  openmin_openmax_integer_empty : Nat
deriving DecidableEq

structure SndPcmHwParams where
  flags : Nat
  masks : List (List Nat)
  reserved_masks : List (List Nat)
  intervals : List SndInterval
  rmask : Nat
  cmask : Nat
  fieldInfo : Nat
  msbits : Nat
  rate_num : Nat
  rate_den : Nat
  fifo_size : Nat
deriving DecidableEq

def U32MAX : Nat := 4294967295

/-- State after audio.rs lines 315-334: `mem::zeroed()`, then every mask word
(including the reserved masks) set to `0xFFFFFFFF` and every interval set to
`[0, u32::MAX]` with zero flags. -/
def wideParams : SndPcmHwParams where
  flags := 0
  masks := List.replicate 3 (List.replicate 8 U32MAX)
  reserved_masks := List.replicate 2 (List.replicate 8 U32MAX)
  intervals := List.replicate 12 ⟨0, U32MAX, 0⟩
  rmask := 0
  cmask := 0
  fieldInfo := 0
  msbits := 0
  rate_num := 0
  rate_den := 0
  fifo_size := 0

/-- audio.rs lines 282-287: S16_LE = 2, S24_LE = 6, S32_LE = 10, default 2. -/
def formatCode (bits : Nat) : Nat :=
  if bits = 16 then 2 else if bits = 24 then 6 else if bits = 32 then 10 else 2

/-- audio.rs lines 336-378: the narrowing stage applied to `wideParams`.
Mask 0 (access) is zeroed then word 0 set to `(1 << 0) | (1 << 3) = 9`;
mask 1 (format) is zeroed then word `format / 32` set to `1 << (format % 32)`;
mask 2 (subformat) is zeroed then word 0 set to 1.  Intervals 0-3 (sample
bits, frame bits = sample_bits * channels, channels, rate) become exact
singletons; interval 5 (period size) becomes `[256, 16384]`, interval 7
(periods) `[2, 8]`; the rest keep their widened value.  Finally
`rmask = 0xFFFFFFFF`.  (`sample_bits * channels` cannot wrap u32 for u16
inputs, so no reduction is needed.) -/
def configure_alsa_params (sample_rate channels bits : Nat) : SndPcmHwParams :=
  let fmt := formatCode bits
  let accessMask := (List.replicate 8 0).set 0 9
  let formatMask := (List.replicate 8 0).set (fmt / 32) (2 ^ (fmt % 32))
  let subformatMask := (List.replicate 8 0).set 0 1
  let sample_bits := bits
  let frame_bits := sample_bits * channels
  let m :=
    ((wideParams.masks.set 0 accessMask).set 1 formatMask).set 2 subformatMask
  let iv0 := wideParams.intervals.set 0 ⟨sample_bits, sample_bits, 0⟩
  let iv1 := iv0.set 1 ⟨frame_bits, frame_bits, 0⟩
  let iv2 := iv1.set 2 ⟨channels, channels, 0⟩
  let iv3 := iv2.set 3 ⟨sample_rate, sample_rate, 0⟩
  let iv5 := iv3.set 5 ⟨256, 16384, 0⟩
  let iv7 := iv5.set 7 ⟨2, 8, 0⟩
  { wideParams with masks := m, intervals := iv7, rmask := U32MAX }

/-! ### Evdev pointer scaling — src/forge/nebula-fb/src/input.rs lines 193-208

`self.mouse_x = (ev.value as i64 * self.screen_width as i64 / 32768) as i32`
followed by `self.mouse_x.clamp(0, self.screen_width as i32 - 1)`.
`wrap32` is the `as i32` cast (two's-complement truncation); i64 arithmetic
never overflows for these operand sizes so it is exact `Int` arithmetic with
truncated division.  Rust's `clamp` panics when `min > max`; that outcome is
`Option.none`.
-/

def wrap32 (z : Int) : Int := (z + 2147483648) % 4294967296 - 2147483648

/-- input.rs lines 196-199 (and identically 202-204 for Y): the scaled,
clamped pointer coordinate for absolute axis value `v` and screen dimension
`d`, or `Option.none` when the `clamp` call panics. -/
def scaleAbs (v : Int) (d : Nat) : Option Int :=
  let q := wrap32 (Int.tdiv (v * (d : Int)) 32768)
  let hi := wrap32 (wrap32 (d : Int) - 1)
  if hi < 0 then Option.none
  else Option.some (max 0 (min q hi))

/-! ### Looping POST-music playback — audio.rs lines 125-179 and 191-263

Event-trace model of `play_post_music`'s worker: the file read
(`std::fs::read`, line 144, before the loop), then the `loop` of lines
160-175: a top-of-iteration stop check (line 161), then `play_wav_data`,
which decodes the header (line 192) and runs the chunk loop with a stop
check before every chunk write (lines 219-222).  This trace models a session
in which no fade is requested (the fade flag stays false), so the control
check reduces to the stop check.  `stops i` is the value the `i`-th load of
the stop flag returns; `fuel` bounds how many iterations of the unbounded
outer loop are observed.
-/

inductive AEvent where
  | readFile
  | decodeHeader
  | stopCheck
  | writeChunk
deriving DecidableEq

/-- audio.rs lines 217-260 with no fade requested: per chunk, a stop check,
then a chunk write.  Returns the events, whether the loop returned early
(`Ok(true)`, line 221), and the index of the next stop-flag load. -/
def chunkTrace (stops : Nat → Bool) (sIdx : Nat) :
    Nat → List AEvent × Bool × Nat
  | 0 => ([], false, sIdx)
  | n + 1 =>
    if stops sIdx then ([.stopCheck], true, sIdx + 1)
    else
      let r := chunkTrace stops (sIdx + 1) n
      (.stopCheck :: .writeChunk :: r.1, r.2.1, r.2.2)

/-- audio.rs lines 160-175: the outer loop.  Each observed iteration checks
the stop flag (line 161), and when it is clear calls `play_wav_data`, which
first decodes the header (line 192) and then runs `nChunks` chunks.  A stop
observed either at the top or inside the chunk loop ends the session. -/
def postLoopTrace (stops : Nat → Bool) (sIdx nChunks : Nat) :
    Nat → List AEvent
  | 0 => []
  | fl + 1 =>
    if stops sIdx then [.stopCheck]
    else
      let r := chunkTrace stops (sIdx + 1) nChunks
      if r.2.1 then .stopCheck :: .decodeHeader :: r.1
      else .stopCheck :: .decodeHeader ::
        (r.1 ++ postLoopTrace stops r.2.2 nChunks fl)

/-- The whole worker of audio.rs lines 142-176: one file read, then the loop. -/
def postMusicTrace (stops : Nat → Bool) (nChunks fuel : Nat) : List AEvent :=
  .readFile :: postLoopTrace stops 0 nChunks fuel

/-- The `PlayHandle` contents at the moment `play_post_music` returns
(audio.rs lines 130-140, 178): stop flag false, volume 1000, fade flag
false, fade duration 3000. -/
structure PlayHandleModel where
  stop0 : Bool
  volume0 : Nat
  fade0 : Bool
  fadeDur0 : Nat
deriving DecidableEq

/-- audio.rs lines 125-179, `play_post_music`, reduced to its return value:
`None` when no ALSA device is available, otherwise a handle built from
freshly initialised control state — independent of the file contents and of
anything the spawned worker later does. -/
def play_post_music (available : Bool) : Option PlayHandleModel :=
  if available then Option.some ⟨false, 1000, false, 3000⟩ else Option.none

/-! ### Helper lemmas -/

theorem cons4_of_length (l : List Nat) (h : 3 < l.length) :
    ∃ a b c d t, l = a :: b :: c :: d :: t := by
  rcases l with _ | ⟨a, _ | ⟨b, _ | ⟨c, _ | ⟨d, t⟩⟩⟩⟩
  · exact absurd h (by simp)
  · exact absurd h (by simp)
  · exact absurd h (by simp)
  · exact absurd h (by simp)
  · exact ⟨a, b, c, d, t, rfl⟩

theorem blit4_get (i : Nat) :
    ∀ (src dst : List Nat), 4 * i + 3 < src.length → 4 * i + 3 < dst.length →
      (blit4 src dst).get? (4 * i) = src.get? (4 * i + 2) ∧
      (blit4 src dst).get? (4 * i + 1) = src.get? (4 * i + 1) ∧
      (blit4 src dst).get? (4 * i + 2) = src.get? (4 * i) ∧
      (blit4 src dst).get? (4 * i + 3) = src.get? (4 * i + 3) := by
  induction i with
  | zero =>
    intro src dst hs hd
    obtain ⟨r, g, b, a, s, rfl⟩ := cons4_of_length src (by simpa using hs)
    obtain ⟨w, x, y, z, t, rfl⟩ := cons4_of_length dst (by simpa using hd)
    simp [blit4]
  | succ i ih =>
    intro src dst hs hd
    obtain ⟨r, g, b, a, s, rfl⟩ := cons4_of_length src (by omega)
    obtain ⟨w, x, y, z, t, rfl⟩ := cons4_of_length dst (by omega)
    have hs4 : 4 * i + 3 < s.length := by simp at hs; omega
    have hd4 : 4 * i + 3 < t.length := by simp at hd; omega
    obtain ⟨p0, p1, p2, p3⟩ := ih s t hs4 hd4
    have e0 : 4 * (i + 1) = 4 * i + 1 + 1 + 1 + 1 := by omega
    have e1 : 4 * (i + 1) + 1 = 4 * i + 1 + 1 + 1 + 1 + 1 := by omega
    have e2 : 4 * (i + 1) + 2 = 4 * i + 2 + 1 + 1 + 1 + 1 := by omega
    have e3 : 4 * (i + 1) + 3 = 4 * i + 3 + 1 + 1 + 1 + 1 := by omega
    refine ⟨?_, ?_, ?_, ?_⟩
    · rw [e2, e0]
      simpa [blit4, List.get?_cons_succ] using p0
    · rw [e1]
      simpa [blit4, List.get?_cons_succ] using p1
    · rw [e2, e0]
      simpa [blit4, List.get?_cons_succ] using p2
    · rw [e3]
      simpa [blit4, List.get?_cons_succ] using p3

/-! ### C1 and C2 — `Framebuffer::present` -/

/-- C1: for every back buffer byte-for-byte equal to `previous_frame` with
the dirty flag unset, `present()` performs zero writes to the mapped
framebuffer region and leaves `previous_frame` and the dirty flag (and the
whole state) unchanged. -/
theorem present_clean_no_writes (fb : Framebuffer)
    (hb : fb.back_buffer = fb.prev_buffer) (hd : fb.dirty = false) :
    fb.present = (fb, []) := by
  unfold Framebuffer.present Framebuffer.is_dirty
  simp [hb, hd]

/-- Witness for C1 at a concrete clean state. -/
theorem present_clean_no_writes_witness :
    Framebuffer.present ⟨[9, 9, 9, 9], [1, 2, 3, 4], [1, 2, 3, 4], false⟩ =
      (⟨[9, 9, 9, 9], [1, 2, 3, 4], [1, 2, 3, 4], false⟩, []) :=
  present_clean_no_writes ⟨[9, 9, 9, 9], [1, 2, 3, 4], [1, 2, 3, 4], false⟩
    rfl rfl

/-- C2: whenever the back buffer differs from `previous_frame` or the dirty
flag is set, `present()` writes each 4-byte pixel of the mapped region with
the red and blue channels of the corresponding back-buffer pixel swapped and
the green and alpha channels unchanged, and afterwards `previous_frame`
equals the back buffer and the dirty flag is cleared. -/
theorem present_dirty_blits (fb : Framebuffer)
    (hdirty : fb.is_dirty = true) :
    fb.present.1.prev_buffer = fb.back_buffer ∧
    fb.present.1.dirty = false ∧
    fb.present.1.back_buffer = fb.back_buffer ∧
    ∀ i, 4 * i + 3 < fb.back_buffer.length → 4 * i + 3 < fb.mapped.length →
      fb.present.1.mapped.get? (4 * i) = fb.back_buffer.get? (4 * i + 2) ∧
      fb.present.1.mapped.get? (4 * i + 1) = fb.back_buffer.get? (4 * i + 1) ∧
      fb.present.1.mapped.get? (4 * i + 2) = fb.back_buffer.get? (4 * i) ∧
      fb.present.1.mapped.get? (4 * i + 3) = fb.back_buffer.get? (4 * i + 3) := by
  unfold Framebuffer.present
  rw [hdirty]
  refine ⟨rfl, rfl, rfl, ?_⟩
  intro i hs hd
  exact blit4_get i fb.back_buffer fb.mapped hs hd

/-- Witness for C2 at a concrete dirty state, pixel 0. -/
theorem present_dirty_blits_witness :
    (Framebuffer.present
        ⟨[7, 7, 7, 7], [10, 20, 30, 40], [0, 0, 0, 0], false⟩).1.prev_buffer =
      [10, 20, 30, 40] ∧
    (Framebuffer.present
        ⟨[7, 7, 7, 7], [10, 20, 30, 40], [0, 0, 0, 0], false⟩).1.mapped.get? 0 =
      ([10, 20, 30, 40] : List Nat).get? 2 := by
  have h := present_dirty_blits
    ⟨[7, 7, 7, 7], [10, 20, 30, 40], [0, 0, 0, 0], false⟩ (by decide)
  exact ⟨h.1, (h.2.2.2 0 (by decide) (by decide)).1⟩

/-! ### C3 — scene stack transitions -/

/-- C3: from `[A]`, `Push B` yields `[A, B]` with `B` active; `Replace C` on
`[A, B]` yields `[A, C]`; `Pop` on `[A, C]` yields `[A]`; `Pop` on `[A]`
yields the empty stack; and the hosting loop's sole exit condition is the
stack being empty after the iteration's transitions. -/
theorem scene_stack_transitions (α : Type) (A B C : α) :
    sceneApply [A] (.push B) = [A, B] ∧
    (sceneApply [A] (.push B)).getLast? = Option.some B ∧
    sceneApply [A, B] (.replace C) = [A, C] ∧
    sceneApply [A, C] .pop = [A] ∧
    sceneApply [A] .pop = [] ∧
    (∀ (stack : List α) (tIn : Option (Transition α)) (tUpd : Transition α),
      loopIter stack tIn tUpd = Option.none ↔
        (loopIterStack stack tIn tUpd).isEmpty = true) := by
  refine ⟨rfl, rfl, rfl, rfl, rfl, ?_⟩
  intro stack tIn tUpd
  unfold loopIter
  rcases h : (loopIterStack stack tIn tUpd).isEmpty <;> simp [h]

/-! ### C4 and C5 — WAV header parsing -/

/-- A hand-built minimal 44-byte WAV: `RIFF` + riff size 36 + `WAVE`, one
`fmt ` chunk of size 16 (PCM, channels = 2, rate = 44100, byte rate 176400,
block align 4, bits = 16), then one `data` chunk of size 0. -/
def goodWav : List Nat :=
  [82, 73, 70, 70, 36, 0, 0, 0, 87, 65, 86, 69,
   102, 109, 116, 32, 16, 0, 0, 0, 1, 0, 2, 0, 68, 172, 0, 0,
   16, 177, 2, 0, 4, 0, 16, 0,
   100, 97, 116, 97, 0, 0, 0, 0]

/-- C4: parsing the minimal 44-byte WAV succeeds with channels = 2,
sample rate = 44100, bits per sample = 16 and data offset = 44. -/
theorem parse_good_wav :
    parse_wav_header goodWav = .ok ⟨2, 44100, 16, 44, 0⟩ := by decide

/-- A 44-byte buffer with valid RIFF/WAVE magic whose first chunk (`LIST`,
size 16) is followed, in the last 8 bytes, by a chunk header claiming
`fmt ` with size 16: the parser's `fmt ` branch then indexes
`data[46] .. data[59]` in a 44-byte buffer. -/
def truncatedFmtWav : List Nat :=
  [82, 73, 70, 70, 36, 0, 0, 0, 87, 65, 86, 69,
   76, 73, 83, 84, 16, 0, 0, 0,
   0, 0, 0, 0, 0, 0, 0, 0, 0, 0, 0, 0, 0, 0, 0, 0,
   102, 109, 116, 32, 16, 0, 0, 0]

/-- C5: evaluation at the failing input.  The 44-byte `truncatedFmtWav`
passes the length and magic checks yet drives the chunk walk into
out-of-bounds indexing — a panic, not a `FormatError` rejection, refuting
totality of the parser. -/
theorem parse_wav_truncated_fmt_panics :
    parse_wav_header truncatedFmtWav = .panicked := by decide

/-! ### C6 and C10 — fade-out handling in the chunk loop -/

/-- C6 counterexample: with fade duration D = 10000000 ms observed from
time 0, at elapsed time t = 5000000 = D/2 the stored volume is 930, not the
claimed `1000 - t*1000/D = 500`: `elapsed_ms * 1000` is u32 arithmetic and
5000000000 wraps to 705032704. -/
theorem fade_formula_wrap_counterexample :
    ctrlStep (Option.some 0) 1000 ⟨false, true, 5000000, 10000000⟩ =
      .cont (Option.some 0) 930 ∧
    1000 - 5000000 * 1000 / 10000000 = (500 : Nat) ∧ (930 : Nat) ≠ 500 := by
  decide

/-- C6 (amended): after a fade-out with duration `D > 0` is first observed
at time `t0` with no earlier fade start, the fade start is latched to `t0`
and the stored volume is 1000; at elapsed time `t1 < D` (with `t1 * 1000`
below the u32 wrap limit) the stored volume is `1000 - t1*1000/D`; and at
elapsed time `t2 ≥ D` (below the u32 wrap limit) the control check — and
with it the chunk loop, hence the playback session — terminates. -/
theorem fade_out_ramp (t0 t1 t2 D vol : Nat) (hD : 0 < D)
    (h1a : t1 < D) (h1b : t1 * 1000 < 4294967296)
    (h2a : D ≤ t2) (h2b : t2 < 4294967296) :
    ctrlStep Option.none vol ⟨false, true, t0, D⟩ =
      .cont (Option.some t0) 1000 ∧
    ctrlStep (Option.some t0) vol ⟨false, true, t0 + t1, D⟩ =
      .cont (Option.some t0) (1000 - t1 * 1000 / D) ∧
    ctrlStep (Option.some t0) vol ⟨false, true, t0 + t2, D⟩ = .stopped ∧
    (∀ (rawChunk len k offset : Nat), offset < len →
      chunkLoop rawChunk len (fun _ => ⟨false, true, t0 + t2, D⟩) k offset
        (Option.some t0) vol = .stoppedEarly) := by
  have hmod1 : (t0 + t1 - t0) % 4294967296 = t1 := by
    have : t1 ≤ t1 * 1000 := by omega
    omega
  have hmod2 : (t0 + t2 - t0) % 4294967296 = t2 := by omega
  have hstop2 : ctrlStep (Option.some t0) vol ⟨false, true, t0 + t2, D⟩ =
      .stopped := by
    unfold ctrlStep
    simp [Option.getD, hmod2, Nat.mod_eq_of_lt h2b, h2a]
  refine ⟨?_, ?_, hstop2, ?_⟩
  · unfold ctrlStep
    simp [Nat.sub_self, Nat.not_le.mpr hD]
  · have ht1 : t1 < 4294967296 := by omega
    unfold ctrlStep
    simp [Option.getD, hmod1, Nat.mod_eq_of_lt ht1, Nat.mod_eq_of_lt h1b,
      Nat.not_le.mpr h1a]
  · intro rawChunk len k offset hoff
    rw [chunkLoop, dif_pos hoff, hstop2]

/-- Witness for C6 at `t0 = 7`, `D = 100`, `t1 = 50`, `t2 = 100`. -/
theorem fade_out_ramp_witness :
    ctrlStep Option.none 777 ⟨false, true, 7, 100⟩ =
      .cont (Option.some 7) 1000 ∧
    ctrlStep (Option.some 7) 777 ⟨false, true, 57, 100⟩ =
      .cont (Option.some 7) (1000 - 50 * 1000 / 100) ∧
    ctrlStep (Option.some 7) 777 ⟨false, true, 107, 100⟩ = .stopped ∧
    chunkLoop 0 1 (fun _ => ⟨false, true, 107, 100⟩) 0 0 (Option.some 7) 777 =
      .stoppedEarly := by
  obtain ⟨h1, h2, h3, h4⟩ := fade_out_ramp 7 50 100 100 777 (by decide)
    (by decide) (by decide) (by decide) (by decide)
  exact ⟨h1, h2, h3, h4 0 1 0 0 (by decide)⟩

/-- C10: when the loaded fade duration is 0 and the fade flag is observed
with the stop flag clear, the control check terminates the loop at that
chunk boundary, performing no division; in general every division the
control check performs has the loaded duration as divisor and executes
only when the (u32) elapsed time is strictly below it — so division by zero
is unreachable for every fade duration. -/
theorem fade_zero_duration_stops (fs : Option Nat) (vol : Nat) (o : FadeObs)
    (hstop : o.stop = false) (hfade : o.fade = true) (hdur : o.dur = 0) :
    ctrlStep fs vol o = .stopped ∧
    ctrlStepDivs fs o = [] ∧
    (∀ (fs2 : Option Nat) (o2 : FadeObs) (x y : Nat),
      (x, y) ∈ ctrlStepDivs fs2 o2 →
      y = o2.dur ∧ (o2.now - fs2.getD o2.now) % 4294967296 < y) ∧
    (∀ (rawChunk len k offset : Nat), offset < len →
      chunkLoop rawChunk len (fun _ => o) k offset fs vol = .stoppedEarly) := by
  have hstep : ctrlStep fs vol o = .stopped := by
    unfold ctrlStep
    rw [if_neg (by simp [hstop]), if_pos hfade, if_pos (by omega)]
  refine ⟨hstep, ?_, ?_, ?_⟩
  · unfold ctrlStepDivs
    rw [if_neg (by simp [hstop]), if_pos hfade, if_pos (by omega)]
  · intro fs2 o2 x y hmem
    unfold ctrlStepDivs at hmem
    by_cases h1 : o2.stop = true
    · simp [h1] at hmem
    · rw [if_neg (by simp [h1])] at hmem
      by_cases h2 : o2.fade = true
      · rw [if_pos h2] at hmem
        by_cases h3 : o2.dur ≤ (o2.now - fs2.getD o2.now) % 4294967296
        · simp [h3] at hmem
        · rw [if_neg h3] at hmem
          simp at hmem
          exact ⟨hmem.2, by omega⟩
      · simp [h2] at hmem
  · intro rawChunk len k offset hoff
    rw [chunkLoop, dif_pos hoff, hstep]

/-- Witness for C10 at a concrete zero-duration fade observation. -/
theorem fade_zero_duration_stops_witness :
    ctrlStep Option.none 1000 ⟨false, true, 42, 0⟩ = .stopped ∧
    ctrlStepDivs Option.none ⟨false, true, 42, 0⟩ = [] ∧
    chunkLoop 0 5 (fun _ => ⟨false, true, 42, 0⟩) 0 0 Option.none 1000 =
      .stoppedEarly := by
  obtain ⟨h1, h2, _, h4⟩ := fade_zero_duration_stops Option.none 1000
    ⟨false, true, 42, 0⟩ rfl rfl rfl
  exact ⟨h1, h2, h4 0 5 0 0 (by decide)⟩

/-! ### C7 — ALSA hardware-parameter construction -/

/-- C7: the hw_params record is built by first setting all three capability
masks (and the reserved ones) to all-ones and all twelve intervals to
`[0, u32::MAX]`, then narrowing: the access mask to exactly the two
interleaved modes (bits 0 and 3), the format mask to exactly the single bit
for the decoded bit depth, the sample-bits, frame-bits
(`sample_bits * channels`), channel-count and sample-rate intervals to
exact singletons, and leaving the period, periods and buffer intervals as
bounded ranges (period size `[256, 16384]`, periods `[2, 8]`, the rest at
the full widened range); every interval has `low ≤ high`. -/
theorem hw_params_widen_then_narrow (rate channels bits : Nat)
    (hbits : bits = 16 ∨ bits = 24 ∨ bits = 32) (_hch : channels < 65536)
    (_hrate : rate < 4294967296) :
    wideParams.masks = List.replicate 3 (List.replicate 8 U32MAX) ∧
    wideParams.reserved_masks = List.replicate 2 (List.replicate 8 U32MAX) ∧
    wideParams.intervals = List.replicate 12 ⟨0, U32MAX, 0⟩ ∧
    (configure_alsa_params rate channels bits).masks =
      [(List.replicate 8 0).set 0 9,
       (List.replicate 8 0).set 0 (2 ^ formatCode bits),
       (List.replicate 8 0).set 0 1] ∧
    (configure_alsa_params rate channels bits).intervals =
      [⟨bits, bits, 0⟩, ⟨bits * channels, bits * channels, 0⟩,
       ⟨channels, channels, 0⟩, ⟨rate, rate, 0⟩, ⟨0, U32MAX, 0⟩,
       ⟨256, 16384, 0⟩, ⟨0, U32MAX, 0⟩, ⟨2, 8, 0⟩, ⟨0, U32MAX, 0⟩,
       ⟨0, U32MAX, 0⟩, ⟨0, U32MAX, 0⟩, ⟨0, U32MAX, 0⟩] ∧
    (∀ iv ∈ (configure_alsa_params rate channels bits).intervals,
      iv.low ≤ iv.high) := by
  have hmasks : (configure_alsa_params rate channels bits).masks =
      [(List.replicate 8 0).set 0 9,
       (List.replicate 8 0).set 0 (2 ^ formatCode bits),
       (List.replicate 8 0).set 0 1] := by
    rcases hbits with h | h | h <;> subst h <;> rfl
  have hiv : (configure_alsa_params rate channels bits).intervals =
      [⟨bits, bits, 0⟩, ⟨bits * channels, bits * channels, 0⟩,
       ⟨channels, channels, 0⟩, ⟨rate, rate, 0⟩, ⟨0, U32MAX, 0⟩,
       ⟨256, 16384, 0⟩, ⟨0, U32MAX, 0⟩, ⟨2, 8, 0⟩, ⟨0, U32MAX, 0⟩,
       ⟨0, U32MAX, 0⟩, ⟨0, U32MAX, 0⟩, ⟨0, U32MAX, 0⟩] := rfl
  refine ⟨rfl, rfl, rfl, hmasks, hiv, ?_⟩
  intro iv hiv2
  rw [hiv] at hiv2
  simp only [List.mem_cons, List.not_mem_nil, or_false] at hiv2
  rcases hiv2 with rfl | rfl | rfl | rfl | rfl | rfl | rfl | rfl | rfl | rfl |
    rfl | rfl <;> simp [U32MAX]

/-- Witness for C7 at rate 44100, 2 channels, 16 bits. -/
theorem hw_params_widen_then_narrow_witness :
    (configure_alsa_params 44100 2 16).masks =
      [(List.replicate 8 0).set 0 9,
       (List.replicate 8 0).set 0 (2 ^ formatCode 16),
       (List.replicate 8 0).set 0 1] ∧
    (configure_alsa_params 44100 2 16).intervals =
      [⟨16, 16, 0⟩, ⟨16 * 2, 16 * 2, 0⟩, ⟨2, 2, 0⟩, ⟨44100, 44100, 0⟩,
       ⟨0, U32MAX, 0⟩, ⟨256, 16384, 0⟩, ⟨0, U32MAX, 0⟩, ⟨2, 8, 0⟩,
       ⟨0, U32MAX, 0⟩, ⟨0, U32MAX, 0⟩, ⟨0, U32MAX, 0⟩, ⟨0, U32MAX, 0⟩] := by
  obtain ⟨_, _, _, h4, h5, _⟩ := hw_params_widen_then_narrow 44100 2 16
    (Or.inl rfl) (by decide) (by decide)
  exact ⟨h4, h5⟩

/-! ### C9 — evdev absolute-axis scaling -/

/-- C9 counterexample: for screen dimension `d = 2^31 + 1` (representable in
the source's u32 `screen_width`), `screen_width as i32 - 1` is negative, so
`clamp(0, …)` has `min > max` and panics instead of producing the claimed
clamped coordinate — refuting the claim for every `d ≥ 1`. -/
theorem evdev_scale_panics_counterexample :
    scaleAbs 0 2147483649 = Option.none ∧
    (Option.none : Option Int) ≠ Option.some 0 := by decide

/-- C9 (amended): for `v ∈ [0, 32767]` and screen dimension
`1 ≤ d ≤ 2^31`, the pointer coordinate is `v*d/32768` (integer division),
which already lies in `[0, d-1]` so the clamp is the identity; in
particular `v = 16384, d = 1920` yields 960, `v = 0` yields 0 and
`v = 32767` yields 1919. -/
theorem evdev_scale_linear (v : Int) (d : Nat) (hv0 : 0 ≤ v)
    (hv : v ≤ 32767) (hd1 : 1 ≤ d) (hd : d ≤ 2147483648) :
    scaleAbs v d = Option.some (Int.tdiv (v * d) 32768) ∧
    0 ≤ Int.tdiv (v * d) 32768 ∧
    Int.tdiv (v * d) 32768 ≤ (d : Int) - 1 ∧
    scaleAbs 16384 1920 = Option.some 960 ∧
    scaleAbs 0 1920 = Option.some 0 ∧
    scaleAbs 32767 1920 = Option.some 1919 := by
  have hd0 : (0 : Int) ≤ (d : Int) := Int.natCast_nonneg d
  have hmul0 : (0 : Int) ≤ v * d := mul_nonneg hv0 hd0
  have hmulle : v * (d : Int) ≤ 32767 * d :=
    mul_le_mul_of_nonneg_right hv hd0
  have htdiv : Int.tdiv (v * (d : Int)) 32768 = v * (d : Int) / 32768 := by
    rw [Int.tdiv_eq_ediv hmul0 (by omega)]
  have hdc1 : (1 : Int) ≤ (d : Int) := by exact_mod_cast hd1
  have hdc2 : (d : Int) ≤ 2147483648 := by exact_mod_cast hd
  refine ⟨?_, ?_, ?_, by decide, by decide, by decide⟩
  · unfold scaleAbs wrap32
    rw [htdiv]
    generalize hP : v * (d : Int) = p at hmul0 hmulle htdiv ⊢
    rw [if_neg (by omega)]
    have h1 : (p / 32768 + 2147483648) % 4294967296 - 2147483648 =
        p / 32768 := by omega
    have h2 : (((d : Int) + 2147483648) % 4294967296 - 2147483648 - 1 +
        2147483648) % 4294967296 - 2147483648 = (d : Int) - 1 := by omega
    rw [h1, h2, min_eq_left (by omega), max_eq_right (by omega)]
  · rw [htdiv]
    have : (0 : Int) ≤ v * (d : Int) / 32768 := Int.ediv_nonneg hmul0 (by omega)
    exact this
  · rw [htdiv]
    generalize hP : v * (d : Int) = p at hmul0 hmulle ⊢
    omega

/-- Witness for C9 at the three concrete axis values of the claim. -/
theorem evdev_scale_linear_witness :
    scaleAbs 16384 1920 = Option.some 960 ∧
    scaleAbs 0 1920 = Option.some 0 ∧
    scaleAbs 32767 1920 = Option.some 1919 := by
  obtain ⟨_, _, _, h4, h5, h6⟩ := evdev_scale_linear 16384 1920 (by decide)
    (by decide) (by decide) (by decide)
  exact ⟨h4, h5, h6⟩

/-! ### C8 — looping POST-music playback -/

/-- Occurrence count of an event in a trace. -/
def countE (e : AEvent) : List AEvent → Nat
  | [] => 0
  | x :: rest => (if x = e then 1 else 0) + countE e rest

theorem countE_append (e : AEvent) :
    ∀ xs ys : List AEvent, countE e (xs ++ ys) = countE e xs + countE e ys
  | [], ys => by simp [countE]
  | x :: xs, ys => by
    simp [countE, countE_append e xs ys]
    omega

/-- Scan of a trace checking that every `decodeHeader` and every
`writeChunk` is immediately preceded by a `stopCheck`; `prev` is the event
before the portion scanned. -/
def guardedAux (prev : AEvent) : List AEvent → Bool
  | [] => true
  | e :: rest =>
    (match e with
     | .decodeHeader => decide (prev = .stopCheck)
     | .writeChunk => decide (prev = .stopCheck)
     | _ => true) && guardedAux e rest

theorem chunkTrace_no_read_no_decode (stops : Nat → Bool) :
    ∀ (n sIdx : Nat),
      countE .readFile (chunkTrace stops sIdx n).1 = 0 ∧
      countE .decodeHeader (chunkTrace stops sIdx n).1 = 0
  | 0, sIdx => by simp [chunkTrace, countE]
  | n + 1, sIdx => by
    by_cases h : stops sIdx
    · simp [chunkTrace, h, countE]
    · have ih := chunkTrace_no_read_no_decode stops n (sIdx + 1)
      simp [chunkTrace, h, countE, ih.1, ih.2]

theorem chunkTrace_guarded (stops : Nat → Bool) :
    ∀ (n sIdx : Nat) (rest : List AEvent),
      (∀ q, guardedAux q rest = true) →
      ∀ p, guardedAux p ((chunkTrace stops sIdx n).1 ++ rest) = true
  | 0, sIdx, rest, hrest, p => by simpa [chunkTrace] using hrest p
  | n + 1, sIdx, rest, hrest, p => by
    by_cases h : stops sIdx
    · simp [chunkTrace, h, guardedAux]
      exact hrest _
    · have ih := chunkTrace_guarded stops n (sIdx + 1) rest hrest .writeChunk
      simpa [chunkTrace, h, guardedAux] using ih

theorem postLoopTrace_no_read (stops : Nat → Bool) (nChunks : Nat) :
    ∀ (fuel sIdx : Nat),
      countE .readFile (postLoopTrace stops sIdx nChunks fuel) = 0
  | 0, sIdx => by simp [postLoopTrace, countE]
  | fuel + 1, sIdx => by
    by_cases h : stops sIdx
    · simp [postLoopTrace, h, countE]
    · have hc := chunkTrace_no_read_no_decode stops nChunks (sIdx + 1)
      by_cases h2 : (chunkTrace stops (sIdx + 1) nChunks).2.1
      · simp [postLoopTrace, h, h2, countE, hc.1]
      · have ih := postLoopTrace_no_read stops nChunks fuel
          (chunkTrace stops (sIdx + 1) nChunks).2.2
        simp [postLoopTrace, h, h2, countE, countE_append, hc.1, ih]

theorem postLoopTrace_guarded (stops : Nat → Bool) (nChunks : Nat) :
    ∀ (fuel sIdx : Nat) (p : AEvent),
      guardedAux p (postLoopTrace stops sIdx nChunks fuel) = true
  | 0, sIdx, p => by simp [postLoopTrace, guardedAux]
  | fuel + 1, sIdx, p => by
    by_cases h : stops sIdx
    · simp [postLoopTrace, h, guardedAux]
    · by_cases h2 : (chunkTrace stops (sIdx + 1) nChunks).2.1
      · have hg := chunkTrace_guarded stops nChunks (sIdx + 1) []
          (fun q => by simp [guardedAux]) .decodeHeader
        simp only [List.append_nil] at hg
        simp [postLoopTrace, h, h2, guardedAux, hg]
      · have hrec : ∀ q, guardedAux q
            (postLoopTrace stops (chunkTrace stops (sIdx + 1) nChunks).2.2
              nChunks fuel) = true :=
          fun q => postLoopTrace_guarded stops nChunks fuel
            (chunkTrace stops (sIdx + 1) nChunks).2.2 q
        have hg := chunkTrace_guarded stops nChunks (sIdx + 1) _ hrec
          .decodeHeader
        simp [postLoopTrace, h, h2, guardedAux, hg]

theorem chunkTrace_never_stops (nChunks sIdx : Nat) :
    (chunkTrace (fun _ => false) sIdx nChunks).2.1 = false := by
  induction nChunks generalizing sIdx with
  | zero => simp [chunkTrace]
  | succ n ih => simp [chunkTrace, ih]

theorem postLoopTrace_decode_each (nChunks : Nat) :
    ∀ (fuel sIdx : Nat),
      countE .decodeHeader
        (postLoopTrace (fun _ => false) sIdx nChunks fuel) = fuel
  | 0, sIdx => by simp [postLoopTrace, countE]
  | fuel + 1, sIdx => by
    have hc := chunkTrace_no_read_no_decode (fun _ => false) nChunks (sIdx + 1)
    have hns := chunkTrace_never_stops nChunks (sIdx + 1)
    have ih := postLoopTrace_decode_each nChunks fuel
      (chunkTrace (fun _ => false) (sIdx + 1) nChunks).2.2
    simp [postLoopTrace, hns, countE, countE_append, hc.2, ih]
    omega

/-- C8 counterexample: a run of two loop iterations (each of one chunk,
stop never observed, bounded at two observed iterations) decodes the header
twice but reads the file from storage exactly once — the worker does NOT
re-read the file on every loop iteration. -/
theorem post_music_single_read_counterexample :
    countE .decodeHeader (postMusicTrace (fun _ => false) 1 2) = 2 ∧
    countE .readFile (postMusicTrace (fun _ => false) 1 2) = 1 ∧
    (1 : Nat) ≠ 2 := by decide

/-- C8 (amended): `play_post_music` returns its `PlayHandle` — built from
freshly initialised control state, independent of playback — immediately;
the worker reads the file from storage exactly once, before the loop, then
re-decodes it on every loop iteration (one header decode per observed
iteration when never stopped), and the stop flag is checked at the top of
each loop iteration and before each chunk write (every `decodeHeader` and
every `writeChunk` in the trace is immediately preceded by a `stopCheck`). -/
theorem post_music_handle_and_loop (stops : Nat → Bool) (nChunks fuel : Nat) :
    play_post_music true = Option.some ⟨false, 1000, false, 3000⟩ ∧
    play_post_music false = Option.none ∧
    (postMusicTrace stops nChunks fuel).head? = Option.some .readFile ∧
    countE .readFile (postMusicTrace stops nChunks fuel) = 1 ∧
    guardedAux .readFile (postLoopTrace stops 0 nChunks fuel) = true ∧
    countE .decodeHeader (postMusicTrace (fun _ => false) nChunks fuel) =
      fuel := by
  refine ⟨rfl, rfl, rfl, ?_, postLoopTrace_guarded stops nChunks fuel 0 _, ?_⟩
  · simp [postMusicTrace, countE, postLoopTrace_no_read stops nChunks fuel 0]
  · simp [postMusicTrace, countE, postLoopTrace_decode_each nChunks fuel 0]

end NebulaFB

